import Mathlib

/-!
Verification development for the `short-shot-spark` repository.

The repository's algorithmic core is a client-side video reframing routine
(`src/services/videoProcessor.ts`, method `drawHighQualityReframedVideo`),
its canvas-dimension / bitrate lookup tables, and two scripted caption
generators (`generatePremiumOpusCaptions` in the same file, and
`generateMockCaptions` in an earlier revision of the processor).

The arithmetic in the source is JavaScript number arithmetic; the model
below uses exact rational arithmetic (`ℚ`) for the geometry, which is the
semantics the specification's guarantees are stated in.  A second, separate
model (`JSNum`) captures the IEEE-style special values `Infinity` and `NaN`
that JavaScript division by zero produces, which is needed to analyse the
behaviour of the routine on zero-sized inputs.
-/

/-- The draw-rectangle computed by the reframing routine: destination
rectangle `(offsetX, offsetY, drawWidth, drawHeight)` passed to
`ctx.drawImage`. -/
structure ReframeResult where
  drawWidth : ℚ
  drawHeight : ℚ
  offsetX : ℚ
  offsetY : ℚ
  deriving DecidableEq, Repr

/-- Embedding of `reframeSettings?.focusPoint || 'center'`: an absent
settings object or an absent/empty (falsy) `focusPoint` string yields
`"center"`. -/
def resolveFocusPoint : Option String → String
  | none => "center"
  | some s => if s = "" then "center" else s

/-- Embedding of the geometry of `drawHighQualityReframedVideo`
(`src/services/videoProcessor.ts`, lines 493-557): compute the draw
rectangle from the video and canvas dimensions and the focus point.
Bias constants `0.25` / `0.35` (horizontal crop) and `0.15` / `0.25`
(vertical crop) are the source's literals. -/
def computeReframe (videoWidth videoHeight canvasWidth canvasHeight : ℚ)
    (focusPoint : Option String) : ReframeResult :=
  let videoAspect := videoWidth / videoHeight
  let targetAspect := canvasWidth / canvasHeight
  let fp := resolveFocusPoint focusPoint
  if videoAspect > targetAspect then
    -- Video is wider - crop sides
    let drawHeight := canvasHeight
    let drawWidth := drawHeight * videoAspect
    let offsetY : ℚ := 0
    let offsetX : ℚ :=
      if fp = "face" then (canvasWidth - drawWidth) * 0.25
      else if fp = "action" then (canvasWidth - drawWidth) * 0.35
      else (canvasWidth - drawWidth) / 2
    ⟨drawWidth, drawHeight, offsetX, offsetY⟩
  else
    -- Video is taller - crop top/bottom
    let drawWidth := canvasWidth
    let drawHeight := drawWidth / videoAspect
    let offsetX : ℚ := 0
    let offsetY : ℚ :=
      if fp = "face" then (canvasHeight - drawHeight) * 0.15
      else if fp = "action" then (canvasHeight - drawHeight) * 0.25
      else (canvasHeight - drawHeight) / 2
    ⟨drawWidth, drawHeight, offsetX, offsetY⟩

example :
    computeReframe 1920 1080 720 1280 none =
      ⟨(20480 : ℚ)/9, 1280, ((720 : ℚ) - 20480/9)/2, 0⟩ := by
  norm_num [computeReframe, resolveFocusPoint]
  all_goals simp

example : (computeReframe 1080 1920 720 1280 none).drawHeight = 1280 := by
  norm_num [computeReframe, resolveFocusPoint]

/-- The mutable 2D-context settings that `drawHighQualityReframedVideo` and
`addPremiumVisualEffects` touch (`fillStyle`, `imageSmoothingEnabled`,
`imageSmoothingQuality`, `shadowColor`, `shadowBlur`).  Canvas pixel
contents are summarised by the list of draw commands issued. -/
structure CtxState where
  fillStyle : String
  imageSmoothingEnabled : Bool
  imageSmoothingQuality : String
  shadowColor : String
  shadowBlur : ℚ
  deriving DecidableEq, Repr

/-- Embedding of the full `drawHighQualityReframedVideo` call
(`src/services/videoProcessor.ts`, lines 493-557, including
`addPremiumVisualEffects`): the draw rectangle is computed from the
arguments alone, then the context settings are overwritten with the
fixed literals of the source.  The incoming context state is consumed
(JavaScript mutates `this.ctx`) and a fresh state plus the computed
`ReframeResult` are returned. -/
def drawHighQualityReframedVideo (_st : CtxState)
    (videoWidth videoHeight canvasWidth canvasHeight : ℚ)
    (focusPoint : Option String) : CtxState × ReframeResult :=
  let r := computeReframe videoWidth videoHeight canvasWidth canvasHeight focusPoint
  -- fillStyle is set to '#000000', then to the vignette gradient in
  -- addPremiumVisualEffects; shadow settings are set last.
  let st' : CtxState :=
    { fillStyle := "vignette-gradient"
      imageSmoothingEnabled := true
      imageSmoothingQuality := "high"
      shadowColor := "rgba(0,0,0,0.3)"
      shadowBlur := 2 }
  (st', r)

/-- Embedding of `getHighQualityCanvasDimensions`
(`src/services/videoProcessor.ts`, lines 467-482): quality multiplier and
aspect-ratio switch with `Math.floor` on each coordinate; unknown aspect
strings fall through to the `9:16` default. -/
def getHighQualityCanvasDimensions (aspectRatio : String) (quality : String) :
    ℤ × ℤ :=
  let multiplier : ℚ := if quality = "4K" then 2 else if quality = "FHD" then 1.5 else 1
  if aspectRatio = "9:16" then (⌊720 * multiplier⌋, ⌊1280 * multiplier⌋)
  else if aspectRatio = "16:9" then (⌊1280 * multiplier⌋, ⌊720 * multiplier⌋)
  else if aspectRatio = "1:1" then (⌊1080 * multiplier⌋, ⌊1080 * multiplier⌋)
  else if aspectRatio = "4:5" then (⌊1080 * multiplier⌋, ⌊1350 * multiplier⌋)
  else (⌊720 * multiplier⌋, ⌊1280 * multiplier⌋)

/-- Embedding of `getQualityBitrate` (`src/services/videoProcessor.ts`,
lines 484-491): bits per second for each quality preset. -/
def getQualityBitrate (quality : String) : ℕ :=
  if quality = "4K" then 8000000
  else if quality = "FHD" then 5000000
  else if quality = "HD" then 3000000
  else 5000000

/-- Embedding of the earlier revision's `getCanvasDimensions`
(`src/unnamed/part_003`, lines 295-306): no quality multiplier and no
`4:5` case; unknown aspect strings (including `4:5`) fall through to
the `9:16` default. -/
def getCanvasDimensions (aspectRatio : String) : ℤ × ℤ :=
  if aspectRatio = "9:16" then (720, 1280)
  else if aspectRatio = "16:9" then (1280, 720)
  else if aspectRatio = "1:1" then (1080, 1080)
  else (720, 1280)

/-- A JavaScript number restricted to the values this code path can
produce: an exact finite value, a signed infinity, or `NaN`.  (Finite
double rounding is not modelled; it is irrelevant to the division-by-zero
behaviour this type is used to analyse.) -/
inductive JSNum where
  | num : ℚ → JSNum
  | posInf : JSNum
  | negInf : JSNum
  | nan : JSNum
  deriving DecidableEq, Repr

/-- JavaScript division, including `x / 0 = ±Infinity` and `0 / 0 = NaN`. -/
def jsDiv : JSNum → JSNum → JSNum
  | .nan, _ => .nan
  | _, .nan => .nan
  | .num a, .num b =>
      if b = 0 then (if a = 0 then .nan else if 0 < a then .posInf else .negInf)
      else .num (a / b)
  | .num _, .posInf => .num 0
  | .num _, .negInf => .num 0
  | .posInf, .num b => if 0 ≤ b then .posInf else .negInf
  | .negInf, .num b => if 0 ≤ b then .negInf else .posInf
  | .posInf, _ => .nan
  | .negInf, _ => .nan

/-- JavaScript multiplication on the same value domain. -/
def jsMul : JSNum → JSNum → JSNum
  | .nan, _ => .nan
  | _, .nan => .nan
  | .num a, .num b => .num (a * b)
  | .num a, .posInf => if a = 0 then .nan else if 0 < a then .posInf else .negInf
  | .num a, .negInf => if a = 0 then .nan else if 0 < a then .negInf else .posInf
  | .posInf, .num b => if b = 0 then .nan else if 0 < b then .posInf else .negInf
  | .negInf, .num b => if b = 0 then .nan else if 0 < b then .negInf else .posInf
  | .posInf, .posInf => .posInf
  | .posInf, .negInf => .negInf
  | .negInf, .posInf => .negInf
  | .negInf, .negInf => .posInf

/-- JavaScript subtraction on the same value domain. -/
def jsSub : JSNum → JSNum → JSNum
  | .nan, _ => .nan
  | _, .nan => .nan
  | .num a, .num b => .num (a - b)
  | .num _, .posInf => .negInf
  | .num _, .negInf => .posInf
  | .posInf, .num _ => .posInf
  | .negInf, .num _ => .negInf
  | .posInf, .posInf => .nan
  | .posInf, .negInf => .posInf
  | .negInf, .posInf => .negInf
  | .negInf, .negInf => .nan

/-- JavaScript `>` comparison; any comparison involving `NaN` is false. -/
def jsGt : JSNum → JSNum → Bool
  | .nan, _ => false
  | _, .nan => false
  | .num a, .num b => a > b
  | .num _, .posInf => false
  | .num _, .negInf => true
  | .posInf, .num _ => true
  | .negInf, .num _ => false
  | .posInf, .posInf => false
  | .posInf, .negInf => true
  | .negInf, .posInf => false
  | .negInf, .negInf => false

/-- JSNum is a finite value. -/
def JSNum.isFinite : JSNum → Bool
  | .num _ => true
  | _ => false

/-- The draw rectangle with JavaScript number semantics. -/
structure JSReframeResult where
  drawWidth : JSNum
  drawHeight : JSNum
  offsetX : JSNum
  offsetY : JSNum
  deriving DecidableEq, Repr

/-- Embedding of the geometry of `drawHighQualityReframedVideo` under
JavaScript number semantics (`JSNum`), mirroring `computeReframe`
operation for operation.  Used to analyse the routine's behaviour on
zero or otherwise invalid dimension inputs, where division by zero
occurs; the routine contains no validation and no error signalling
path, so its codomain is a plain `JSReframeResult`. -/
def computeReframeJS (videoWidth videoHeight canvasWidth canvasHeight : JSNum)
    (focusPoint : Option String) : JSReframeResult :=
  let videoAspect := jsDiv videoWidth videoHeight
  let targetAspect := jsDiv canvasWidth canvasHeight
  let fp := resolveFocusPoint focusPoint
  if jsGt videoAspect targetAspect then
    let drawHeight := canvasHeight
    let drawWidth := jsMul drawHeight videoAspect
    let offsetY : JSNum := .num 0
    let offsetX : JSNum :=
      if fp = "face" then jsMul (jsSub canvasWidth drawWidth) (.num 0.25)
      else if fp = "action" then jsMul (jsSub canvasWidth drawWidth) (.num 0.35)
      else jsDiv (jsSub canvasWidth drawWidth) (.num 2)
    ⟨drawWidth, drawHeight, offsetX, offsetY⟩
  else
    let drawWidth := canvasWidth
    let drawHeight := jsDiv drawWidth videoAspect
    let offsetX : JSNum := .num 0
    let offsetY : JSNum :=
      if fp = "face" then jsMul (jsSub canvasHeight drawHeight) (.num 0.15)
      else if fp = "action" then jsMul (jsSub canvasHeight drawHeight) (.num 0.25)
      else jsDiv (jsSub canvasHeight drawHeight) (.num 2)
    ⟨drawWidth, drawHeight, offsetX, offsetY⟩

/-- A caption segment.  The source's `end` field is called `stop` here
because `end` is a Lean keyword.  The cosmetic styling fields of the
premium variant (`style`, `position`, `animation`, `fontSize`,
`backgroundColor`, `textColor`) are per-caption display attributes that no
claim concerns and are not modelled. -/
structure Caption where
  text : String
  start : ℚ
  stop : ℚ
  deriving DecidableEq, Repr

/-- Embedding of JavaScript `text.split(' ')` by structural recursion on
the character list (the library `String.splitOn` is defined by
well-founded recursion and does not reduce definitionally). -/
def splitOnSpace (s : String) : List String :=
  go s.data []
where
  /-- Accumulates the current word (reversed) while scanning. -/
  go : List Char → List Char → List String
  | [], acc => [String.mk acc.reverse]
  | c :: rest, acc =>
      if c = ' ' then String.mk acc.reverse :: go rest [] else go rest (c :: acc)

/-- Embedding of JavaScript `s.toUpperCase()` (ASCII case map, which is
all the fixed caption texts need), by structural `List.map` so that it
reduces definitionally. -/
def jsToUpperCase (s : String) : String :=
  String.mk (s.data.map Char.toUpper)

/-- The fixed sentence list of `generatePremiumOpusCaptions`
(`src/services/videoProcessor.ts`, lines 267-278). -/
def premiumTexts : List String :=
  [ "This moment will change everything"
  , "You've never seen anything like this"
  , "The secret that everyone's been waiting for"
  , "This will revolutionize how you think"
  , "The breakthrough moment is here"
  , "Everything you knew was wrong"
  , "The truth they don't want you to know"
  , "This changes the entire game"
  , "The most important discovery ever"
  , "You won't believe what happens next" ]

/-- The fixed words-per-second rate of `generatePremiumOpusCaptions`
(line 281 of `src/services/videoProcessor.ts`). -/
def wordsPerSecond : ℚ := 2.2

/-- Successive slices `words.slice(i, i + 5)` taken by the inner loop of
`generatePremiumOpusCaptions` (`for (let i = 0; i < words.length; i += maxCaptionLength)`
with `maxCaptionLength = 5`). -/
def chunks5 : List String → List (List String)
  | [] => []
  | a :: b :: c :: d :: e :: rest => [a, b, c, d, e] :: chunks5 rest
  | l => [l]

/-- The inner segment loop of `generatePremiumOpusCaptions` (lines
294-317): emit one caption per word chunk, advancing the clock by the
segment duration plus the fixed `0.3`s pause, breaking out as soon as a
segment would end past `duration`.  Returns the final clock value and
the emitted captions. -/
def emitSegments (duration : ℚ) : ℚ → List (List String) → ℚ × List Caption
  | t, [] => (t, [])
  | t, ws :: rest =>
      let segmentDuration := (ws.length : ℚ) / wordsPerSecond
      if t + segmentDuration > duration then (t, [])
      else
        let c : Caption :=
          ⟨jsToUpperCase (String.intercalate " " ws), t, t + segmentDuration⟩
        let p := emitSegments duration (t + segmentDuration + 0.3) rest
        (p.1, c :: p.2)

/-- The outer `while (currentTime < duration - 1 && textIndex < premiumTexts.length)`
loop of `generatePremiumOpusCaptions` (lines 289-320), structurally
recursive on the remaining sentence list. -/
def genLoop (duration : ℚ) : ℚ → List String → List Caption
  | _, [] => []
  | t, s :: rest =>
      if t < duration - 1 then
        let p := emitSegments duration t (chunks5 (splitOnSpace s))
        p.2 ++ genLoop duration p.1 rest
      else []

/-- Embedding of `generatePremiumOpusCaptions`
(`src/services/videoProcessor.ts`, lines 266-324). -/
def generatePremiumOpusCaptions (duration : ℚ) : List Caption :=
  genLoop duration 0 premiumTexts

/-- The fixed sentence list of `generateMockCaptions`
(`src/unnamed/part_003`, lines 203-214). -/
def captionTexts : List String :=
  [ "Welcome to this amazing tutorial"
  , "Here's what you need to know"
  , "This will change everything"
  , "Pay attention to this part"
  , "The secret is right here"
  , "Don't miss this important tip"
  , "This is game-changing advice"
  , "You won't believe what happens next"
  , "Here's the breakthrough moment"
  , "This is absolutely incredible" ]

/-- Embedding of `generateMockCaptions` (`src/unnamed/part_003`, lines
202-229): `numCaptions = Math.min(Math.floor(duration / 3), captionTexts.length)`
equal captions partitioning `[0, duration]`.  A non-positive
`numCaptions` makes the `for` loop run zero times, i.e. `List.range`
of `Int.toNat`. -/
def generateMockCaptions (duration : ℚ) : List Caption :=
  let numCaptions : ℤ := min ⌊duration / 3⌋ (captionTexts.length : ℤ)
  let segmentDuration : ℚ := duration / (numCaptions : ℚ)
  (List.range numCaptions.toNat).map fun i =>
    ⟨captionTexts.getD i "", (i : ℚ) * segmentDuration, ((i : ℚ) + 1) * segmentDuration⟩

/-! ### Helper lemmas for the reframe geometry -/

lemma tw_lt_drawWidth {sw sh tw th : ℚ} (hsh : 0 < sh) (hth : 0 < th)
    (h : tw / th < sw / sh) : tw < th * (sw / sh) := by
  rw [← mul_div_assoc, lt_div_iff₀ hsh]
  have h1 := (div_lt_div_iff₀ hth hsh).mp h
  nlinarith

lemma th_le_drawHeight {sw sh tw th : ℚ} (hsw : 0 < sw) (hsh : 0 < sh)
    (hth : 0 < th) (h : sw / sh ≤ tw / th) : th ≤ tw / (sw / sh) := by
  rw [div_div_eq_mul_div, le_div_iff₀ hsw]
  have h1 := (div_le_div_iff₀ hsh hth).mp h
  nlinarith

lemma th_lt_drawHeight {sw sh tw th : ℚ} (hsw : 0 < sw) (hsh : 0 < sh)
    (hth : 0 < th) (h : sw / sh < tw / th) : th < tw / (sw / sh) := by
  rw [div_div_eq_mul_div, lt_div_iff₀ hsw]
  have h1 := (div_lt_div_iff₀ hsh hth).mp h
  nlinarith

/-- C1: for every positive finite source and target dimensions exactly one
branch of the reframe computation applies (never both, never neither); the
wider-source branch fixes `drawHeight = targetHeight`,
`drawWidth = targetHeight * sourceAspect` and `offsetY = 0`, the other
branch fixes `drawWidth = targetWidth`, `drawHeight = targetWidth / sourceAspect`
and `offsetX = 0`; and in both cases `drawWidth ≥ targetWidth` and
`drawHeight ≥ targetHeight` (the no-letterboxing invariant). -/
theorem reframe_branch_dichotomy (sw sh tw th : ℚ) (p : Option String)
    (hsw : 0 < sw) (hsh : 0 < sh) (htw : 0 < tw) (hth : 0 < th) :
    ((sw / sh > tw / th ∧ ¬sw / sh ≤ tw / th)
      ∨ (sw / sh ≤ tw / th ∧ ¬sw / sh > tw / th))
    ∧ (if sw / sh > tw / th
       then (computeReframe sw sh tw th p).drawHeight = th
            ∧ (computeReframe sw sh tw th p).drawWidth = th * (sw / sh)
            ∧ (computeReframe sw sh tw th p).offsetY = 0
       else (computeReframe sw sh tw th p).drawWidth = tw
            ∧ (computeReframe sw sh tw th p).drawHeight = tw / (sw / sh)
            ∧ (computeReframe sw sh tw th p).offsetX = 0)
    ∧ tw ≤ (computeReframe sw sh tw th p).drawWidth
    ∧ th ≤ (computeReframe sw sh tw th p).drawHeight := by
  by_cases hc : sw / sh > tw / th
  · have hdw := tw_lt_drawWidth hsh hth hc
    refine ⟨Or.inl ⟨hc, not_le.mpr hc⟩, ?_, ?_, ?_⟩
    · rw [if_pos hc]
      refine ⟨?_, ?_, ?_⟩ <;> simp [computeReframe, hc]
    · simp [computeReframe, hc]
      linarith
    · simp [computeReframe, hc]
  · have hle : sw / sh ≤ tw / th := not_lt.mp hc
    have hdh := th_le_drawHeight hsw hsh hth hle
    refine ⟨Or.inr ⟨hle, hc⟩, ?_, ?_, ?_⟩
    · rw [if_neg hc]
      refine ⟨?_, ?_, ?_⟩ <;> simp [computeReframe, hc]
    · simp [computeReframe, hc]
    · simp [computeReframe, hc]
      linarith

/-- Witness for C1 at `1920×1080 → 720×1280` with the `face` policy. -/
theorem reframe_branch_dichotomy_witness :
    720 ≤ (computeReframe 1920 1080 720 1280 (some "face")).drawWidth
    ∧ 1280 ≤ (computeReframe 1920 1080 720 1280 (some "face")).drawHeight := by
  have h := reframe_branch_dichotomy 1920 1080 720 1280 (some "face")
    (by norm_num) (by norm_num) (by norm_num) (by norm_num)
  exact ⟨h.2.2.1, h.2.2.2⟩

/-- C2: for every positive source and target dimensions the `center`
focus policy yields exactly the midpoint offset on the crop axis:
`offsetX = (targetWidth - drawWidth) / 2` when the horizontal axis is
cropped, `offsetY = (targetHeight - drawHeight) / 2` when the vertical
axis is cropped. -/
theorem reframe_center_midpoint (sw sh tw th : ℚ)
    (hsw : 0 < sw) (hsh : 0 < sh) (htw : 0 < tw) (hth : 0 < th) :
    if sw / sh > tw / th
    then (computeReframe sw sh tw th (some "center")).offsetX
        = (tw - (computeReframe sw sh tw th (some "center")).drawWidth) / 2
    else (computeReframe sw sh tw th (some "center")).offsetY
        = (th - (computeReframe sw sh tw th (some "center")).drawHeight) / 2 := by
  by_cases hc : sw / sh > tw / th
  · rw [if_pos hc]
    simp [computeReframe, resolveFocusPoint, hc]
  · rw [if_neg hc]
    simp [computeReframe, resolveFocusPoint, hc]

/-- Witness for C2 at `1920×1080 → 720×1280`. -/
theorem reframe_center_midpoint_witness :
    (computeReframe 1920 1080 720 1280 (some "center")).offsetX
      = (720 - (computeReframe 1920 1080 720 1280 (some "center")).drawWidth) / 2 := by
  have h := reframe_center_midpoint 1920 1080 720 1280
    (by norm_num) (by norm_num) (by norm_num) (by norm_num)
  rw [if_pos (by norm_num : (1920:ℚ)/1080 > 720/1280)] at h
  exact h

/-- C3 (counterexample): with source `1×1` and target `1×1` (equal
aspects, all dimensions positive) the `face` policy yields a crop-axis
offset of exactly `0`, which is not strictly between `0` and the
magnitude of the `center` offset (itself `0`), so the claim as stated
fails. -/
theorem reframe_face_strict_between_fails :
    (computeReframe 1 1 1 1 (some "face")).offsetY = 0
    ∧ ¬(0 < |(computeReframe 1 1 1 1 (some "face")).offsetY|
        ∧ |(computeReframe 1 1 1 1 (some "face")).offsetY|
            < |(computeReframe 1 1 1 1 (some "center")).offsetY|) := by
  constructor
  · norm_num [computeReframe, resolveFocusPoint]
  · rintro ⟨h1, -⟩
    rw [show (computeReframe 1 1 1 1 (some "face")).offsetY = 0 by
      norm_num [computeReframe, resolveFocusPoint]] at h1
    simp at h1

/-- C3 (amended): for positive dimensions the `face` and `action`
policies yield a crop-axis offset strictly between `0` and the `center`
offset (in magnitude) whenever the source and target aspects differ; in
all cases the crop-axis offset is non-positive and the offset plus the
draw dimension still covers the full target dimension on the crop axis
(never cropping past the source edge). -/
theorem reframe_focus_bias_bounds (sw sh tw th : ℚ) (p : Option String)
    (hsw : 0 < sw) (hsh : 0 < sh) (htw : 0 < tw) (hth : 0 < th)
    (hp : p = some "face" ∨ p = some "action") :
    if sw / sh > tw / th
    then ((computeReframe sw sh tw th (some "center")).offsetX
            < (computeReframe sw sh tw th p).offsetX
          ∧ (computeReframe sw sh tw th p).offsetX < 0)
         ∧ (computeReframe sw sh tw th p).offsetX ≤ 0
         ∧ tw ≤ (computeReframe sw sh tw th p).offsetX
                + (computeReframe sw sh tw th p).drawWidth
    else (sw / sh ≠ tw / th →
            (computeReframe sw sh tw th (some "center")).offsetY
              < (computeReframe sw sh tw th p).offsetY
            ∧ (computeReframe sw sh tw th p).offsetY < 0)
         ∧ (computeReframe sw sh tw th p).offsetY ≤ 0
         ∧ th ≤ (computeReframe sw sh tw th p).offsetY
                + (computeReframe sw sh tw th p).drawHeight := by
  by_cases hc : sw / sh > tw / th
  · rw [if_pos hc]
    have hdw := tw_lt_drawWidth hsh hth hc
    rcases hp with rfl | rfl <;>
      · simp [computeReframe, resolveFocusPoint, hc]
        norm_num
        constructor
        · constructor <;> nlinarith
        · constructor <;> nlinarith
  · rw [if_neg hc]
    have hle : sw / sh ≤ tw / th := not_lt.mp hc
    have hdh := th_le_drawHeight hsw hsh hth hle
    have hstrict : sw / sh ≠ tw / th → th < tw / (sw / sh) := fun hne =>
      th_lt_drawHeight hsw hsh hth (lt_of_le_of_ne hle hne)
    rcases hp with rfl | rfl <;>
      · simp [computeReframe, resolveFocusPoint, hc]
        norm_num
        refine ⟨fun hne => ?_, by nlinarith, by nlinarith⟩
        have := hstrict hne
        constructor <;> nlinarith

/-- Witness for the amended C3 at `1920×1080 → 720×1280` with the `face`
policy (unequal aspects, horizontal crop). -/
theorem reframe_focus_bias_bounds_witness :
    (computeReframe 1920 1080 720 1280 (some "center")).offsetX
      < (computeReframe 1920 1080 720 1280 (some "face")).offsetX
    ∧ (computeReframe 1920 1080 720 1280 (some "face")).offsetX < 0 := by
  have h := reframe_focus_bias_bounds 1920 1080 720 1280 (some "face")
    (by norm_num) (by norm_num) (by norm_num) (by norm_num) (Or.inl rfl)
  rw [if_pos (by norm_num : (1920:ℚ)/1080 > 720/1280)] at h
  exact h.1

/-- C6: any focus-policy value other than `face` and `action` — the
strings outside the closed set `{center, face, action}` as well as an
absent policy — produces exactly the `center` offsets: the switch
statement's `default` arm is the `center` computation. -/
theorem focus_policy_fallback_center (sw sh tw th : ℚ) (p : Option String)
    (hsw : 0 < sw) (hsh : 0 < sh) (htw : 0 < tw) (hth : 0 < th)
    (hp : p = none
      ∨ ∃ s, p = some s ∧ s ≠ "center" ∧ s ≠ "face" ∧ s ≠ "action") :
    computeReframe sw sh tw th p = computeReframe sw sh tw th (some "center") := by
  rcases hp with rfl | ⟨s, rfl, hs1, hs2, hs3⟩
  · rfl
  · by_cases he : s = ""
    · subst he; rfl
    · simp only [computeReframe, resolveFocusPoint, if_neg he, if_neg hs2, if_neg hs3]
      simp

/-- Witness for C6 with the out-of-set policy string `"top-left"`. -/
theorem focus_policy_fallback_center_witness :
    computeReframe 1920 1080 720 1280 (some "top-left")
      = computeReframe 1920 1080 720 1280 (some "center") := by
  exact focus_policy_fallback_center 1920 1080 720 1280 (some "top-left")
    (by norm_num) (by norm_num) (by norm_num) (by norm_num)
    (Or.inr ⟨"top-left", rfl, by decide, by decide, by decide⟩)

/-- C7: the reframe computation is deterministic and stateless — the
`ReframeResult` of a call depends only on the five inputs, not on the
context state left behind by any prior call, and immediately repeating a
call with identical inputs yields an identical result. -/
theorem reframe_deterministic_stateless (st₁ st₂ : CtxState)
    (sw sh tw th : ℚ) (p : Option String) :
    (drawHighQualityReframedVideo st₁ sw sh tw th p).2
      = (drawHighQualityReframedVideo st₂ sw sh tw th p).2
    ∧ (drawHighQualityReframedVideo
        (drawHighQualityReframedVideo st₁ sw sh tw th p).1 sw sh tw th p).2
      = (drawHighQualityReframedVideo st₁ sw sh tw th p).2 :=
  ⟨rfl, rfl⟩

/-- C4 (code evidence): with `sourceWidth = 0` (all other dimensions
positive) the reframe computation performs no validation and signals no
error: under JavaScript number semantics it silently computes
`drawHeight = Infinity` and `offsetY = -Infinity` and hands the
non-finite draw rectangle to `drawImage`. -/
theorem reframeJS_zero_width_nonfinite :
    computeReframeJS (.num 0) (.num 1080) (.num 720) (.num 1280) none
      = ⟨.num 720, .posInf, .num 0, .negInf⟩
    ∧ (computeReframeJS (.num 0) (.num 1080) (.num 720)
        (.num 1280) none).drawHeight.isFinite = false
    ∧ (computeReframeJS (.num 0) (.num 1080) (.num 720)
        (.num 1280) none).offsetY.isFinite = false := by
  norm_num [computeReframeJS, jsDiv, jsSub, jsGt, jsMul, resolveFocusPoint,
    JSNum.isFinite]

/-- C5: the canvas-dimension lookup maps `9:16 → 720×1280`,
`16:9 → 1280×720`, `1:1 → 1080×1080`, `4:5 → 1080×1350`, each coordinate
multiplied by `1` for `HD`, `1.5` for `FHD` and `2` for `4K`, so that
`4K`/`1:1` yields `2160×2160`; and the bitrate lookup returns `3` Mbps
for `HD`, `5` Mbps for `FHD` and `8` Mbps for `4K`. -/
theorem canvas_dimensions_bitrate_table :
    getHighQualityCanvasDimensions "9:16" "HD" = (720, 1280)
    ∧ getHighQualityCanvasDimensions "16:9" "HD" = (1280, 720)
    ∧ getHighQualityCanvasDimensions "1:1" "HD" = (1080, 1080)
    ∧ getHighQualityCanvasDimensions "4:5" "HD" = (1080, 1350)
    ∧ getHighQualityCanvasDimensions "9:16" "FHD" = (1080, 1920)
    ∧ getHighQualityCanvasDimensions "16:9" "FHD" = (1920, 1080)
    ∧ getHighQualityCanvasDimensions "1:1" "FHD" = (1620, 1620)
    ∧ getHighQualityCanvasDimensions "4:5" "FHD" = (1620, 2025)
    ∧ getHighQualityCanvasDimensions "9:16" "4K" = (1440, 2560)
    ∧ getHighQualityCanvasDimensions "16:9" "4K" = (2560, 1440)
    ∧ getHighQualityCanvasDimensions "1:1" "4K" = (2160, 2160)
    ∧ getHighQualityCanvasDimensions "4:5" "4K" = (2160, 2700)
    ∧ getQualityBitrate "HD" = 3000000
    ∧ getQualityBitrate "FHD" = 5000000
    ∧ getQualityBitrate "4K" = 8000000 := by
  refine ⟨?_, ?_, ?_, ?_, ?_, ?_, ?_, ?_, ?_, ?_, ?_, ?_, ?_, ?_, ?_⟩ <;>
    simp [getHighQualityCanvasDimensions, getQualityBitrate] <;> norm_num

/-- C9: every aspect-ratio string outside `{9:16, 16:9, 1:1, 4:5}` makes
the canvas-dimension lookup silently return the `9:16` dimensions for the
given quality (the switch default), and the earlier variant's lookup,
which has no `4:5` case, sends the string `"4:5"` to the same `9:16`
default `720×1280`. -/
theorem canvas_dimensions_default_fallback (a : String)
    (ha : a ∉ (["9:16", "16:9", "1:1", "4:5"] : List String)) (q : String) :
    getHighQualityCanvasDimensions a q = getHighQualityCanvasDimensions "9:16" q
    ∧ getCanvasDimensions "4:5" = (720, 1280)
    ∧ getCanvasDimensions "4:5" = getCanvasDimensions "9:16" := by
  simp only [List.mem_cons, List.not_mem_nil, or_false, not_or] at ha
  obtain ⟨h1, h2, h3, h4⟩ := ha
  refine ⟨?_, by simp [getCanvasDimensions], by simp [getCanvasDimensions]⟩
  simp [getHighQualityCanvasDimensions, h1, h2, h3, h4]

/-- Witness for C9 with the unknown aspect string `"21:9"`. -/
theorem canvas_dimensions_default_fallback_witness :
    getHighQualityCanvasDimensions "21:9" "HD"
      = getHighQualityCanvasDimensions "9:16" "HD" :=
  (canvas_dimensions_default_fallback "21:9" (by decide) "HD").1

/-! ### Helper lemmas for the caption generators -/

lemma drop_cons5 {α : Type} (a b c d e : α) (rest : List α) (i : ℕ) :
    (a :: b :: c :: d :: e :: rest).drop (i + 5) = rest.drop i := by
  rw [Nat.add_comm i 5, ← List.drop_drop]
  rfl

/-- Every chunk produced by `chunks5` is a slice of five consecutive
elements of the original list. -/
lemma chunks5_mem : ∀ (l : List String), ∀ ws ∈ chunks5 l,
    ∃ i, ws = (l.drop i).take 5
  | [], ws, h => by simp [chunks5] at h
  | [a], ws, h => by
      simp only [chunks5, List.mem_singleton] at h
      exact ⟨0, by simp [h]⟩
  | [a, b], ws, h => by
      simp only [chunks5, List.mem_singleton] at h
      exact ⟨0, by simp [h]⟩
  | [a, b, c], ws, h => by
      simp only [chunks5, List.mem_singleton] at h
      exact ⟨0, by simp [h]⟩
  | [a, b, c, d], ws, h => by
      simp only [chunks5, List.mem_singleton] at h
      exact ⟨0, by simp [h]⟩
  | a :: b :: c :: d :: e :: rest, ws, h => by
      rw [chunks5] at h
      rcases List.mem_cons.mp h with rfl | h2
      · exact ⟨0, by simp⟩
      · obtain ⟨i, hi⟩ := chunks5_mem rest ws h2
        exact ⟨i + 5, by rw [drop_cons5]; exact hi⟩

/-- Every caption emitted by the inner segment loop comes from one of the
offered word chunks, lasts exactly its word count divided by the fixed
rate, and ends no later than `duration`. -/
lemma emitSegments_mem (duration : ℚ) :
    ∀ (cs : List (List String)) (t : ℚ) (c : Caption),
      c ∈ (emitSegments duration t cs).2 →
      ∃ ws ∈ cs, c.text = jsToUpperCase (String.intercalate " " ws)
        ∧ c.stop - c.start = (ws.length : ℚ) / wordsPerSecond
        ∧ c.stop ≤ duration
  | [], t, c, h => by simp [emitSegments] at h
  | ws :: rest, t, c, h => by
      simp only [emitSegments] at h
      by_cases hb : t + (ws.length : ℚ) / wordsPerSecond > duration
      · rw [if_pos hb] at h
        simp at h
      · rw [if_neg hb] at h
        simp only [List.mem_cons] at h
        rcases h with rfl | h2
        · refine ⟨ws, List.mem_cons_self _ _, rfl, by ring, ?_⟩
          simpa using le_of_not_lt hb
        · obtain ⟨ws', hmem, hrest⟩ := emitSegments_mem duration rest _ c h2
          exact ⟨ws', List.mem_cons_of_mem _ hmem, hrest⟩

/-- Every caption produced by the outer sentence loop comes from a chunk
of one of the offered sentences. -/
lemma genLoop_mem (duration : ℚ) :
    ∀ (texts : List String) (t : ℚ) (c : Caption),
      c ∈ genLoop duration t texts →
      ∃ s ∈ texts, ∃ ws ∈ chunks5 (splitOnSpace s),
        c.text = jsToUpperCase (String.intercalate " " ws)
        ∧ c.stop - c.start = (ws.length : ℚ) / wordsPerSecond
        ∧ c.stop ≤ duration
  | [], t, c, h => by simp [genLoop] at h
  | s :: rest, t, c, h => by
      simp only [genLoop] at h
      by_cases ht : t < duration - 1
      · rw [if_pos ht] at h
        rcases List.mem_append.mp h with h1 | h2
        · obtain ⟨ws, hws, hrest⟩ := emitSegments_mem duration _ t c h1
          exact ⟨s, List.mem_cons_self _ _, ws, hws, hrest⟩
        · obtain ⟨s', hs', hrest⟩ := genLoop_mem duration rest _ c h2
          exact ⟨s', List.mem_cons_of_mem _ hs', hrest⟩
      · rw [if_neg ht] at h
        simp at h

/-- C8: every caption emitted by the premium caption generator is a
slice of at most five consecutive words of one of the fixed sentences,
its duration (`stop - start`) is exactly its word count divided by the
fixed `2.2` words-per-second rate, and its end time never exceeds the
clip duration. -/
theorem premium_captions_sliced_timed (duration : ℚ) (c : Caption)
    (hc : c ∈ generatePremiumOpusCaptions duration) :
    ∃ s ∈ premiumTexts, ∃ i,
      c.text = jsToUpperCase (String.intercalate " " (((splitOnSpace s).drop i).take 5))
      ∧ (((splitOnSpace s).drop i).take 5).length ≤ 5
      ∧ c.stop - c.start
          = ((((splitOnSpace s).drop i).take 5).length : ℚ) / (2.2 : ℚ)
      ∧ c.stop ≤ duration := by
  obtain ⟨s, hs, ws, hws, htext, htime, hstop⟩ :=
    genLoop_mem duration premiumTexts 0 c hc
  obtain ⟨i, rfl⟩ := chunks5_mem _ ws hws
  exact ⟨s, hs, i, htext, List.length_take_le _ _, htime, hstop⟩

/-- Witness for C8: the single caption generated for a clip of duration
`5/2` seconds. -/
theorem premium_captions_sliced_timed_witness :
    ∃ s ∈ premiumTexts, ∃ i,
      (⟨"THIS MOMENT WILL CHANGE EVERYTHING", 0, 25/11⟩ : Caption).text
        = jsToUpperCase (String.intercalate " " (((splitOnSpace s).drop i).take 5))
      ∧ (((splitOnSpace s).drop i).take 5).length ≤ 5
      ∧ (⟨"THIS MOMENT WILL CHANGE EVERYTHING", 0, 25/11⟩ : Caption).stop
          - (⟨"THIS MOMENT WILL CHANGE EVERYTHING", 0, 25/11⟩ : Caption).start
          = ((((splitOnSpace s).drop i).take 5).length : ℚ) / (2.2 : ℚ)
      ∧ (⟨"THIS MOMENT WILL CHANGE EVERYTHING", 0, 25/11⟩ : Caption).stop
          ≤ 5/2 := by
  have he : generatePremiumOpusCaptions (5/2)
      = [⟨"THIS MOMENT WILL CHANGE EVERYTHING", 0, 25/11⟩] := by
    norm_num [generatePremiumOpusCaptions, genLoop, emitSegments, chunks5,
      splitOnSpace, splitOnSpace.go, jsToUpperCase, premiumTexts, wordsPerSecond]
    decide
  exact premium_captions_sliced_timed (5/2) _ (he ▸ List.mem_singleton.mpr rfl)

/-- C10: for every clip duration `d ≥ 3` the mock caption generator
returns exactly `n = min ⌊d / 3⌋ 10` captions partitioning `[0, d]`:
caption `i` spans `[i * (d / n), (i + 1) * (d / n)]`, consecutive
captions are contiguous, the first starts at `0` and the last ends
exactly at `d`; for every `d < 3` it returns the empty list. -/
theorem mock_captions_partition (d : ℚ) :
    (3 ≤ d →
      (generateMockCaptions d).length = (min ⌊d / 3⌋ 10).toNat
      ∧ 1 ≤ (min ⌊d / 3⌋ 10).toNat
      ∧ (∀ i : ℕ, ∀ hi : i < (generateMockCaptions d).length,
          ((generateMockCaptions d).get ⟨i, hi⟩).start
              = i * (d / ((min ⌊d / 3⌋ 10 : ℤ) : ℚ))
          ∧ ((generateMockCaptions d).get ⟨i, hi⟩).stop
              = (i + 1) * (d / ((min ⌊d / 3⌋ 10 : ℤ) : ℚ)))
      ∧ (∀ hi : 0 < (generateMockCaptions d).length,
          ((generateMockCaptions d).get ⟨0, hi⟩).start = 0)
      ∧ (∀ hne : generateMockCaptions d ≠ [],
          ((generateMockCaptions d).getLast hne).stop = d)
      ∧ (∀ i : ℕ, ∀ hi : i + 1 < (generateMockCaptions d).length,
          ((generateMockCaptions d).get ⟨i + 1, hi⟩).start
            = ((generateMockCaptions d).get ⟨i, Nat.lt_of_succ_lt hi⟩).stop))
    ∧ (d < 3 → generateMockCaptions d = []) := by
  have hlenTexts : ((captionTexts.length : ℕ) : ℤ) = 10 := rfl
  constructor
  · intro hd
    have hfloor : (1 : ℤ) ≤ ⌊d / 3⌋ := by
      rw [Int.le_floor]
      push_cast
      linarith
    have hn : (1 : ℤ) ≤ min ⌊d / 3⌋ 10 := le_min hfloor (by norm_num)
    have hnq : ((min ⌊d / 3⌋ 10 : ℤ) : ℚ) ≠ 0 := by
      have h0 : (0 : ℚ) < ((min ⌊d / 3⌋ 10 : ℤ) : ℚ) := by exact_mod_cast hn
      linarith
    have htoNat : (((min ⌊d / 3⌋ 10).toNat : ℤ)) = min ⌊d / 3⌋ 10 :=
      Int.toNat_of_nonneg (by linarith)
    have hlen : (generateMockCaptions d).length = (min ⌊d / 3⌋ 10).toNat := by
      simp only [generateMockCaptions, hlenTexts, List.length_map,
        List.length_range]
    have hget : ∀ i : ℕ, ∀ hi : i < (generateMockCaptions d).length,
        (generateMockCaptions d).get ⟨i, hi⟩
          = ⟨captionTexts.getD i "",
             (i : ℚ) * (d / ((min ⌊d / 3⌋ 10 : ℤ) : ℚ)),
             ((i : ℚ) + 1) * (d / ((min ⌊d / 3⌋ 10 : ℤ) : ℚ))⟩ := by
      intro i hi
      simp only [generateMockCaptions, hlenTexts, List.get_eq_getElem,
        List.getElem_map, List.getElem_range]
    refine ⟨hlen, by omega, ?_, ?_, ?_, ?_⟩
    · intro i hi
      rw [hget i hi]
      exact ⟨rfl, rfl⟩
    · intro hi
      rw [hget 0 hi]
      simp
    · intro hne
      have hlpos : 0 < (generateMockCaptions d).length := List.length_pos.mpr hne
      rw [List.getLast_eq_get, hget _ _]
      have h1 : ((generateMockCaptions d).length - 1) + 1
          = (min ⌊d / 3⌋ 10).toNat := by
        rw [hlen] at hlpos ⊢
        omega
      have hcast : (((generateMockCaptions d).length - 1 : ℕ) : ℚ) + 1
          = ((min ⌊d / 3⌋ 10 : ℤ) : ℚ) := by
        calc (((generateMockCaptions d).length - 1 : ℕ) : ℚ) + 1
            = ((((generateMockCaptions d).length - 1) + 1 : ℕ) : ℚ) := by
              push_cast
              ring
          _ = (((min ⌊d / 3⌋ 10).toNat : ℕ) : ℚ) := by rw [h1]
          _ = ((min ⌊d / 3⌋ 10 : ℤ) : ℚ) := by exact_mod_cast htoNat
      show ((((generateMockCaptions d).length - 1 : ℕ) : ℚ) + 1)
          * (d / ((min ⌊d / 3⌋ 10 : ℤ) : ℚ)) = d
      rw [hcast, mul_comm, div_mul_cancel₀ d hnq]
    · intro i hi
      rw [hget (i + 1) hi, hget i (Nat.lt_of_succ_lt hi)]
      push_cast
      ring_nf
  · intro hd
    have hfl : ⌊d / 3⌋ < 1 := by
      rw [Int.floor_lt]
      push_cast
      linarith
    have hz : (min ⌊d / 3⌋ 10).toNat = 0 := by omega
    simp only [generateMockCaptions, hlenTexts, hz, List.range_zero,
      List.map_nil]

/-- Witness for C10 at duration `9`: three captions, the first starting
at `0`, the last ending at `9`. -/
theorem mock_captions_partition_witness :
    (generateMockCaptions 9).length = 3
    ∧ (∀ hne : generateMockCaptions 9 ≠ [],
        ((generateMockCaptions 9).getLast hne).stop = 9) := by
  have h := (mock_captions_partition 9).1 (by norm_num)
  constructor
  · rw [h.1]
    norm_num
    rfl
  · exact h.2.2.2.2.1
